import Mathlib

/-!
Verification development for the Baukasten font-downloader plugin
(Netlify build plugin plus Astro integration) and its validation
utilities.  The JavaScript sources are shallowly embedded as pure Lean
functions; external effects (filesystem, network) are passed in as
explicit oracles, so every function is executable and total.
-/

namespace Baukasten

/-! ## Character-list utilities

Small executable string helpers used by the embedded path functions.
They operate on `List Char` so that concrete instances reduce in the
kernel.
-/

/-- Does the list `p` occur at the head of `l`? -/
def leadsChars : List Char → List Char → Bool
  | [], _ => true
  | _ :: _, [] => false
  | a :: as, b :: bs => a == b && leadsChars as bs

/-- Does the pattern `pat` occur anywhere inside `l` (contiguously)? -/
def hasSubChars (pat : List Char) : List Char → Bool
  | [] => leadsChars pat []
  | c :: cs => leadsChars pat (c :: cs) || hasSubChars pat cs

/-- Embeds JavaScript `String.prototype.startsWith`. -/
def jsStartsWith (s pat : String) : Bool := leadsChars pat.data s.data

/-- Embeds JavaScript `String.prototype.includes`. -/
def jsIncludes (s pat : String) : Bool := hasSubChars pat.data s.data

/-- Split a character list at every slash; a list with no slash yields
one segment, and each slash starts a fresh (possibly empty) segment. -/
def splitSlash : List Char → List (List Char)
  | [] => [[]]
  | c :: cs =>
    if c = '/' then [] :: splitSlash cs
    else
      match splitSlash cs with
      | [] => [[c]]
      | s :: ss => (c :: s) :: ss

/-- Join segments with a single slash between them. -/
def joinSlash : List (List Char) → List Char
  | [] => []
  | [s] => s
  | s :: ss => s ++ '/' :: joinSlash ss

/-! ## Embedding of Node `path.posix`

`path.posix.normalize` resolves `.` and `..` segments and collapses
repeated separators; `path.posix.basename` returns the final path
segment.  Both are translated from the documented Node.js algorithm
(the source calls them via `path.posix.normalize`, `path.basename`).
-/

/-- Segment resolution of Node `normalizeString`: drop empty and `.`
segments; `..` pops the previous real segment, or — when
`allowAboveRoot` is set (relative paths) — accumulates at the front. -/
def normSegs (allowAboveRoot : Bool) : List (List Char) → List (List Char) → List (List Char)
  | acc, [] => acc.reverse
  | acc, seg :: rest =>
    if seg = [] ∨ seg = ['.'] then normSegs allowAboveRoot acc rest
    else if seg = ['.', '.'] then
      match acc with
      | [] => if allowAboveRoot then normSegs allowAboveRoot [['.', '.']] rest
              else normSegs allowAboveRoot [] rest
      | top :: accTail =>
        if top = ['.', '.'] then
          if allowAboveRoot then normSegs allowAboveRoot (['.', '.'] :: top :: accTail) rest
          else normSegs allowAboveRoot (top :: accTail) rest
        else normSegs allowAboveRoot accTail rest
    else normSegs allowAboveRoot (seg :: acc) rest

/-- Embeds Node `path.posix.normalize`. -/
def posixNormalize (p : String) : String :=
  if p.data = [] then "."
  else
    let abs := leadsChars ['/'] p.data
    let trail := leadsChars ['/'] p.data.reverse
    let body := joinSlash (normSegs (!abs) [] (splitSlash p.data))
    if body = [] then
      if abs then "/" else if trail then "./" else "."
    else
      let body := if trail then body ++ ['/'] else body
      if abs then String.mk ('/' :: body) else String.mk body

/-- Embeds Node `path.basename` (posix): the last nonempty slash
separated segment, or the empty string when there is none. -/
def basename (p : String) : String :=
  match ((splitSlash p.data).filter (fun s => s ≠ [])).getLast? with
  | some s => String.mk s
  | none => ""

/-! ## Embedding of `sanitizePath` (validation utilities)

`sanitizePath(inputPath)` throws for an empty input, normalizes the
path posix-style, throws on directory-traversal patterns or absolute
paths, and otherwise returns the normalized path.  Thrown `Error`s are
embedded as `Except.error` carrying the message.
-/

/-- Traversal and absolute-path guards of `sanitizePath`, applied to the
already normalized path. -/
def sanitizeGuards (normalized : String) : Except String String :=
  if jsStartsWith normalized "../" ∨ jsIncludes normalized "/../" ∨
      jsIncludes normalized "..\\" ∨ normalized = ".." then
    Except.error "Path contains invalid directory traversal"
  else if jsStartsWith normalized "/" then
    Except.error "Path must be a relative path"
  else
    Except.ok normalized

/-- Embeds `sanitizePath` from the validation utilities module. -/
def sanitizePath (inputPath : String) : Except String String :=
  if inputPath = "" then
    Except.error "Path is required and must be a string"
  else
    sanitizeGuards (posixNormalize inputPath)

/-! ## Embedding of SHA-256 (Node `crypto.createHash('sha256')`)

`generateFontConfigHash` pipes a JSON string through Node's SHA-256 and
reads the digest in hex.  The digest is embedded in full (FIPS 180-4)
over the UTF-8 bytes of the input string, with 32-bit words as `Nat`
reduced modulo `2^32`.
-/

/-- Truncate to a 32-bit word. -/
def mask32 (x : Nat) : Nat := x % 4294967296

/-- Rotate a 32-bit word right by `n` bits. -/
def rotr32 (n x : Nat) : Nat := mask32 ((x >>> n) ||| (x <<< (32 - n)))

/-- SHA-256 `Ch` function; complement within 32 bits. -/
def chF (x y z : Nat) : Nat := (x &&& y) ^^^ ((4294967295 - x) &&& z)

/-- SHA-256 `Maj` function. -/
def majF (x y z : Nat) : Nat := (x &&& y) ^^^ (x &&& z) ^^^ (y &&& z)

/-- SHA-256 big sigma 0. -/
def bsig0 (x : Nat) : Nat := rotr32 2 x ^^^ rotr32 13 x ^^^ rotr32 22 x

/-- SHA-256 big sigma 1. -/
def bsig1 (x : Nat) : Nat := rotr32 6 x ^^^ rotr32 11 x ^^^ rotr32 25 x

/-- SHA-256 small sigma 0. -/
def ssig0 (x : Nat) : Nat := rotr32 7 x ^^^ rotr32 18 x ^^^ (x >>> 3)

/-- SHA-256 small sigma 1. -/
def ssig1 (x : Nat) : Nat := rotr32 17 x ^^^ rotr32 19 x ^^^ (x >>> 10)

/-- SHA-256 round constants `K[0] .. K[63]` (FIPS 180-4 section
4.2.2), written in decimal. -/
def sha256K : List Nat :=
  [1116352408, 1899447441, 3049323471, 3921009573,
   961987163, 1508970993, 2453635748, 2870763221,
   3624381080, 310598401, 607225278, 1426881987,
   1925078388, 2162078206, 2614888103, 3248222580,
   3835390401, 4022224774, 264347078, 604807628,
   770255983, 1249150122, 1555081692, 1996064986,
   2554220882, 2821834349, 2952996808, 3210313671,
   3336571891, 3584528711, 113926993, 338241895,
   666307205, 773529912, 1294757372, 1396182291,
   1695183700, 1986661051, 2177026350, 2456956037,
   2730485921, 2820302411, 3259730800, 3345764771,
   3516065817, 3600352804, 4094571909, 275423344,
   430227734, 506948616, 659060556, 883997877,
   958139571, 1322822218, 1537002063, 1747873779,
   1955562222, 2024104815, 2227730452, 2361852424,
   2428436474, 2756734187, 3204031479, 3329325298]

/-- SHA-256 initial hash state `H[0] .. H[7]` (FIPS 180-4 section
5.3.3), written in decimal. -/
def sha256H0 : List Nat :=
  [1779033703, 3144134277, 1013904242, 2773480762,
   1359893119, 2600822924, 528734635, 1541459225]

/-- 64-bit big-endian byte rendering of the message bit length. -/
def be64 (n : Nat) : List Nat :=
  [(n >>> 56) % 256, (n >>> 48) % 256, (n >>> 40) % 256, (n >>> 32) % 256,
   (n >>> 24) % 256, (n >>> 16) % 256, (n >>> 8) % 256, n % 256]

/-- SHA-256 padding: append `0x80`, zeros to 56 mod 64, then the bit
length big-endian. -/
def padMsg (msg : List Nat) : List Nat :=
  let z := (120 - (msg.length + 1) % 64) % 64
  msg ++ 128 :: (List.replicate z 0 ++ be64 (msg.length * 8))

/-- Split the padded message into 64-byte blocks. -/
def toBlocks (l : List Nat) : List (List Nat) :=
  if h : l = [] then []
  else l.take 64 :: toBlocks (l.drop 64)
termination_by l.length
decreasing_by
  have hpos : 0 < l.length := List.length_pos.mpr h
  simp [List.length_drop]
  omega

/-- Pack bytes into 32-bit big-endian words. -/
def toWords : List Nat → List Nat
  | b0 :: b1 :: b2 :: b3 :: rest => (((b0 * 256 + b1) * 256 + b2) * 256 + b3) :: toWords rest
  | _ => []

/-- One message-schedule extension step appending word `w[n]`. -/
def stepSchedule (w : List Nat) : List Nat :=
  let n := w.length
  w ++ [mask32 (ssig1 (w.getD (n - 2) 0) + w.getD (n - 7) 0 +
                ssig0 (w.getD (n - 15) 0) + w.getD (n - 16) 0)]

/-- Iterate the message-schedule extension `k` times. -/
def extendWords : Nat → List Nat → List Nat
  | 0, w => w
  | k + 1, w => extendWords k (stepSchedule w)

/-- One SHA-256 compression round on the 8-word working state,
consuming one (schedule word, round constant) pair. -/
def roundStep (st : List Nat) (wk : Nat × Nat) : List Nat :=
  match st with
  | [a, b, c, d, e, f, g, h] =>
    let t1 := mask32 (h + bsig1 e + chF e f g + wk.2 + wk.1)
    let t2 := mask32 (bsig0 a + majF a b c)
    [mask32 (t1 + t2), a, b, c, mask32 (d + t1), e, f, g]
  | other => other

/-- Compress one 64-byte block into the running hash state. -/
def compressBlock (hs : List Nat) (block : List Nat) : List Nat :=
  let w := extendWords 48 (toWords block)
  let st := (w.zip sha256K).foldl roundStep hs
  (hs.zip st).map (fun p => mask32 (p.1 + p.2))

/-- SHA-256 of a byte sequence, as eight 32-bit words. -/
def sha256Words (msg : List Nat) : List Nat :=
  (toBlocks (padMsg msg)).foldl compressBlock sha256H0

/-- Lower-case hex digit for a value below 16. -/
def hexDigitChar (n : Nat) : Char :=
  if n < 10 then Char.ofNat (48 + n) else Char.ofNat (87 + n)

/-- Eight-character hex rendering of a 32-bit word. -/
def wordHex (w : Nat) : List Char :=
  (List.range 8).map (fun i => hexDigitChar ((w >>> ((7 - i) * 4)) % 16))

/-- Hex SHA-256 digest of the UTF-8 bytes of a string; embeds Node
`createHash('sha256').update(s).digest('hex')`. -/
def sha256Hex (s : String) : String :=
  String.mk (((sha256Words (s.toUTF8.toList.map (fun b => b.toNat))).map wordHex).flatten)

/-! ## Embedding of the font configuration and its fingerprint

A JavaScript font object is embedded as an association list of string
fields (first binding wins on lookup, as for plain JS data objects);
this keeps field order and extra fields observable, as in the source.
`generateFontConfigHash` maps each font to the object literal
`\x7b name, url1, url2 \x7d`, serializes the list with
`JSON.stringify`, and hashes the resulting string.
-/

/-- A JavaScript object holding string fields, as an association list. -/
abbrev FontObj : Type := List (String × String)

/-- Property access `f.k` on an embedded object; `none` plays the role
of `undefined`. -/
def lookupField (f : FontObj) (k : String) : Option String :=
  (List.find? (fun p => p.1 == k) f).map (fun p => p.2)

/-- JSON.stringify escaping of one character. -/
def jsonEscapeChar (c : Char) : List Char :=
  if c = '"' then ['\\', '"']
  else if c = '\\' then ['\\', '\\']
  else if c = Char.ofNat 8 then ['\\', 'b']
  else if c = Char.ofNat 9 then ['\\', 't']
  else if c = Char.ofNat 10 then ['\\', 'n']
  else if c = Char.ofNat 12 then ['\\', 'f']
  else if c = Char.ofNat 13 then ['\\', 'r']
  else if c.toNat < 32 then
    ['\\', 'u', '0', '0', hexDigitChar (c.toNat / 16), hexDigitChar (c.toNat % 16)]
  else [c]

/-- JSON string literal for `s`. -/
def jsonQuote (s : String) : String :=
  String.mk ('"' :: ((s.data.map jsonEscapeChar).flatten ++ ['"']))

/-- JSON.stringify of the canonical object
`\x7b name: f.name, url1: f.url1, url2: f.url2 \x7d`; fields holding
`undefined` are omitted, exactly as JSON.stringify does. -/
def fontTripleJson (f : FontObj) : String :=
  let fields := [("name", lookupField f "name"),
                 ("url1", lookupField f "url1"),
                 ("url2", lookupField f "url2")]
  let rendered := fields.filterMap
    (fun kv => kv.2.map (fun v => jsonQuote kv.1 ++ ":" ++ jsonQuote v))
  "\x7b" ++ String.intercalate "," rendered ++ "\x7d"

/-- The canonical configuration string `JSON.stringify(fonts.map(...))`. -/
def fontConfigString (fonts : List FontObj) : String :=
  "[" ++ String.intercalate "," (fonts.map fontTripleJson) ++ "]"

/-- Embeds `generateFontConfigHash`: SHA-256 hex digest of the
canonical configuration string. -/
def generateFontConfigHash (fonts : List FontObj) : String :=
  sha256Hex (fontConfigString fonts)

/-! ## Embedding of the font cache state store

The state lives in `.astro/font-cache-state.json`.  The file is
embedded as `Option (Option CacheState)`: `none` means the file is
missing, `some none` means it exists but reading or `JSON.parse`
fails, and `some (some st)` means it parses to `st`.
-/

/-- One entry of the cached fonts list
(`\x7b name, woff, woff2 \x7d` as written by the download loop);
`none` embeds JS `null`/`undefined`. -/
structure CachedFont where
  name : Option String
  woff : Option String
  woff2 : Option String
deriving DecidableEq, Repr

/-- The persisted font cache state
(`\x7b lastSync, configHash, fonts, version \x7d`). -/
structure CacheState where
  lastSync : Option String
  configHash : Option String
  fonts : List CachedFont
  version : String
deriving DecidableEq, Repr

/-- The fresh empty state built by `loadFontCacheState` when the file
is missing or unparseable. -/
def freshFontCacheState : CacheState :=
  { lastSync := none, configHash := none, fonts := [], version := "1.0.0" }

/-- Embeds `loadFontCacheState`: missing file or parse failure yields
the fresh state; a parsed file is returned as-is. -/
def loadFontCacheState : Option (Option CacheState) → CacheState
  | none => freshFontCacheState
  | some none => freshFontCacheState
  | some (some st) => st

/-- Result of `saveFontCacheState`: the state file afterwards, and
whether the write failure was logged (`console.error`). -/
structure SaveOutcome where
  fileAfter : Option (Option CacheState)
  errorLogged : Bool
deriving DecidableEq, Repr

/-- Embeds `saveFontCacheState`: `writeOk` is the oracle for whether
`fs.writeFileSync` succeeds; a failure is caught and logged, leaving
the prior file untouched, and never propagates (the function is
total). -/
def saveFontCacheState (writeOk : Bool) (prior : Option (Option CacheState))
    (state : CacheState) : SaveOutcome :=
  if writeOk then { fileAfter := some (some state), errorLogged := false }
  else { fileAfter := prior, errorLogged := true }

/-- Embeds `hasFontConfigChanged`: true when there is no cached hash or
the cached hash differs from the hash of the requested configuration. -/
def hasFontConfigChanged (fonts : List FontObj) (cachedState : CacheState) : Bool :=
  match cachedState.configHash with
  | none => true
  | some h => h != generateFontConfigHash fonts

/-! ## Embedding of `retryWithBackoff` and `downloadFont`

The callback `fn` is embedded as an oracle giving the outcome of its
`i`-th invocation (0-indexed).  The embedding returns the final
outcome, the number of attempts made, and the list of backoff delays
slept between attempts, in order.
-/

/-- Loop body of `retryWithBackoff`, at loop counter `attempt` with
`remaining = maxRetries - attempt` further attempts allowed. -/
def retryGo (fn : Nat → Except String Nat) (baseDelay : Nat) :
    Nat → Nat → Except String Nat × Nat × List Nat
  | attempt, 0 =>
    match fn attempt with
    | Except.ok v => (Except.ok v, attempt + 1, [])
    | Except.error e => (Except.error e, attempt + 1, [])
  | attempt, remaining + 1 =>
    match fn attempt with
    | Except.ok v => (Except.ok v, attempt + 1, [])
    | Except.error _ =>
      let delay := baseDelay * 2 ^ attempt
      let rest := retryGo fn baseDelay (attempt + 1) remaining
      (rest.1, rest.2.1, delay :: rest.2.2)

/-- Embeds `retryWithBackoff(fn, maxRetries, baseDelay)`: attempts run
for `attempt = 0 .. maxRetries`; after a failure with
`attempt < maxRetries` the loop sleeps `baseDelay * 2 ^ attempt` and
retries; the last error is rethrown once attempts are exhausted. -/
def retryWithBackoff (fn : Nat → Except String Nat) (maxRetries : Nat := 3)
    (baseDelay : Nat := 1000) : Except String Nat × Nat × List Nat :=
  retryGo fn baseDelay 0 maxRetries

/-- Outcome of one `fetch` attempt: either a transport-level failure
(timeout abort, connection reset, ...) or an HTTP response with its
`ok` flag, status, status text and body size in bytes. -/
inductive FetchOutcome where
  | netError (msg : String)
  | response (ok : Bool) (status : Nat) (statusText : String) (bytes : Nat)
deriving DecidableEq, Repr

/-- One attempt body of `downloadFont`: a transport error propagates;
a non-ok response throws `HTTP status: statusText`; an ok response
yields the body. -/
def fetchAttempt : FetchOutcome → Except String Nat
  | FetchOutcome.netError m => Except.error m
  | FetchOutcome.response ok status statusText bytes =>
    if ok then Except.ok bytes
    else Except.error ("HTTP " ++ toString status ++ ": " ++ statusText)

/-- Embeds `downloadFont(url, opts)`: the attempt body run under
`retryWithBackoff`; `net i` is the fetch outcome of attempt `i`. -/
def downloadFont (net : Nat → FetchOutcome) (maxRetries : Nat := 3)
    (retryDelay : Nat := 1000) : Except String Nat × Nat × List Nat :=
  retryWithBackoff (fun i => fetchAttempt (net i)) maxRetries retryDelay

/-! ## Embedding of `downloadFontsWithCache`

Filesystem and network are oracles: `fileExists name` tells whether a
font file with that basename is on disk in `public/fonts`, and
`dl url` is the final outcome of `downloadFont url` — `some bytes`
when some attempt succeeded, `none` when retries were exhausted.  The
run is summarized by a `RunResult`.
-/

/-- Summary of one `downloadFontsWithCache` run: the URLs for which a
download was attempted (in order), the list written to `fonts.json`,
the state passed to `saveFontCacheState` (`none` when the cache-hit
path skipped saving), the returned fonts list, and whether old font
files were deleted. -/
structure RunResult where
  downloads : List String
  fontsJson : Option (List CachedFont)
  savedState : Option CacheState
  returned : List CachedFont
  cleanedOldFonts : Bool
deriving DecidableEq, Repr

/-- The cache-hit verification that all recorded font files still
exist: for each cached font, a recorded `woff`/`woff2` path must have
its basename present in the fonts directory. -/
def allCachedFilesExist (fileExists : String → Bool) (fonts : List CachedFont) : Bool :=
  fonts.all (fun font =>
    (match font.woff with
     | none => true
     | some w => fileExists (basename w)) &&
    (match font.woff2 with
     | none => true
     | some w => fileExists (basename w)))

/-- The path recorded for one format: when the URL is present and its
download succeeded, `/fonts/` followed by the URL basename, else
nothing (`woffPath`/`woff2Path` in the source loop). -/
def fmtPath (dl : String → Option Nat) : Option String → Option String
  | some u => if (dl u).isSome then some ("/fonts/" ++ basename u) else none
  | none => none

/-- The entry `\x7b name, woff, woff2 \x7d` the loop pushes for a
font. -/
def mkCachedFontEntry (dl : String → Option Nat) (f : FontObj) : CachedFont :=
  { name := lookupField f "name"
    woff := fmtPath dl (lookupField f "url1")
    woff2 := fmtPath dl (lookupField f "url2") }

/-- `hasSuccessfulDownload` for one font: at least one of its formats
downloaded. -/
def fontSucceeded (dl : String → Option Nat) (f : FontObj) : Bool :=
  (fmtPath dl (lookupField f "url1")).isSome ||
  (fmtPath dl (lookupField f "url2")).isSome

/-- The entry pushed onto `fontData` for one font: present exactly when
at least one format downloaded. -/
def fontEntry (dl : String → Option Nat) (f : FontObj) : Option CachedFont :=
  if fontSucceeded dl f then some (mkCachedFontEntry dl f) else none

/-- The download attempts one font triggers: its `url1` then its
`url2`, each when present. -/
def fontUrls (f : FontObj) : List String :=
  (lookupField f "url1").toList ++ (lookupField f "url2").toList

/-- All download attempts of a run over the whole configuration. -/
def allFontUrls (fonts : List FontObj) : List String :=
  (fonts.map fontUrls).flatten

/-- The per-font download loop: attempts WOFF (`url1`) then WOFF2
(`url2`) when present, records a `/fonts/basename` path per success,
and pushes an entry only when at least one format succeeded.  Returns
the attempted URLs and the collected `fontData`. -/
def downloadLoop (dl : String → Option Nat) : List FontObj → List String × List CachedFont
  | [] => ([], [])
  | f :: rest =>
    let tail := downloadLoop dl rest
    (fontUrls f ++ tail.1,
     match fontEntry dl f with
     | some e => e :: tail.2
     | none => tail.2)

/-- The `fontData` list a download-path run collects. -/
def fontDataOf (dl : String → Option Nat) (fonts : List FontObj) : List CachedFont :=
  (downloadLoop dl fonts).2

/-- Result of the cache-hit branch: no downloads, `fonts.json`
rewritten from the cached list, cache state not saved, cached list
returned. -/
def cacheHitResult (cacheState : CacheState) : RunResult :=
  { downloads := []
    fontsJson := some cacheState.fonts
    savedState := none
    returned := cacheState.fonts
    cleanedOldFonts := false }

/-- Result of the download path: old font files cleaned, every
configured URL attempted, `fonts.json` and the saved state built from
the collected `fontData`, the saved `configHash` being the hash of the
entire requested configuration. -/
def downloadPathResult (fonts : List FontObj) (dl : String → Option Nat)
    (now : String) : RunResult :=
  let loopOut := downloadLoop dl fonts
  { downloads := loopOut.1
    fontsJson := some loopOut.2
    savedState := some
      { lastSync := some now
        configHash := some (generateFontConfigHash fonts)
        fonts := loopOut.2
        version := "1.0.0" }
    returned := loopOut.2
    cleanedOldFonts := true }

/-- Embeds `downloadFontsWithCache(fonts, options)`: load the cache
state, and when the configuration hash is unchanged, the cached list
nonempty, and every recorded file still present, return the cached
fonts without downloading or saving; otherwise clean the fonts
directory, download everything, write `fonts.json`, and save a fresh
cache state stamped `now`. -/
def downloadFontsWithCache (fonts : List FontObj)
    (stateFile : Option (Option CacheState)) (fileExists : String → Bool)
    (dl : String → Option Nat) (now : String) : RunResult :=
  let cacheState := loadFontCacheState stateFile
  let configChanged := hasFontConfigChanged fonts cacheState
  if configChanged = false ∧ 0 < cacheState.fonts.length then
    if allCachedFilesExist fileExists cacheState.fonts then
      cacheHitResult cacheState
    else
      downloadPathResult fonts dl now
  else
    downloadPathResult fonts dl now

/-! ## Embedding of the two entry hooks

`onPreBuild` (Netlify build plugin) and the `astro:config:setup` hook
of the Astro integration both check `process.env.KIRBY_URL` before any
network request; the `global.json` fetch-and-parse outcome is the
oracle `globalFonts` (`none` embeds a missing/empty `global.font`).
-/

/-- Observable behaviour of a hook invocation: the network requests
made, whether the font domain was skipped, and the inner
`downloadFontsWithCache` run when one happened. -/
structure HookResult where
  requests : List String
  skippedFontDomain : Bool
  run : Option RunResult
deriving Repr

/-- The shared continuation of both hooks once an origin URL is known:
fetch `global.json`, and either write an empty `fonts.json` (no fonts
configured) or run `downloadFontsWithCache`. -/
def fontDomainRun (apiUrl : String) (globalFonts : Option (List FontObj))
    (stateFile : Option (Option CacheState)) (fileExists : String → Bool)
    (dl : String → Option Nat) (now : String) : HookResult :=
  let globalReq := apiUrl ++ "/global.json"
  match globalFonts with
  | none => { requests := [globalReq], skippedFontDomain := true, run := none }
  | some fonts =>
    if fonts.length = 0 then
      { requests := [globalReq], skippedFontDomain := true, run := none }
    else
      let r := downloadFontsWithCache fonts stateFile fileExists dl now
      { requests := globalReq :: r.downloads, skippedFontDomain := false, run := some r }

/-- Embeds the font-download phase of the Netlify `onPreBuild` hook:
a missing `KIRBY_URL` logs a warning and returns before any network
request. -/
def onPreBuildHook (kirbyUrl : Option String) (globalFonts : Option (List FontObj))
    (stateFile : Option (Option CacheState)) (fileExists : String → Bool)
    (dl : String → Option Nat) (now : String) : HookResult :=
  match kirbyUrl with
  | none => { requests := [], skippedFontDomain := true, run := none }
  | some apiUrl => fontDomainRun apiUrl globalFonts stateFile fileExists dl now

/-- Embeds the Astro integration's `astro:config:setup` hook
(`fontDownloader.js`): development mode and Netlify environments skip;
otherwise a missing `KIRBY_URL` logs a warning and returns before any
network request. -/
def fontDownloaderHook (nodeEnv : Option String) (netlify : Bool)
    (kirbyUrl : Option String) (globalFonts : Option (List FontObj))
    (stateFile : Option (Option CacheState)) (fileExists : String → Bool)
    (dl : String → Option Nat) (now : String) : HookResult :=
  if nodeEnv = some "development" then
    { requests := [], skippedFontDomain := true, run := none }
  else if netlify then
    { requests := [], skippedFontDomain := true, run := none }
  else
    match kirbyUrl with
    | none => { requests := [], skippedFontDomain := true, run := none }
    | some apiUrl => fontDomainRun apiUrl globalFonts stateFile fileExists dl now

end Baukasten

namespace Baukasten

/-- C10: Path-traversal safety of sanitizePath: for every string input,
sanitizePath either throws an Error or returns the POSIX-normalized
path, and every returned path is relative (not absolute), is not `..`,
does not start with `../`, and contains no `/../` segment or `..\`
sequence — so a returned path can never escape the working directory. -/
theorem sanitizePath_traversal_safe (s r : String)
    (h : sanitizePath s = Except.ok r) :
    r = posixNormalize s ∧
    jsStartsWith r "../" = false ∧
    jsIncludes r "/../" = false ∧
    jsIncludes r "..\\" = false ∧
    r ≠ ".." ∧
    jsStartsWith r "/" = false := by
  unfold sanitizePath at h
  have hguards : sanitizeGuards (posixNormalize s) = Except.ok r := by
    by_cases hs : s = "" <;> simp [hs] at h
    exact h
  unfold sanitizeGuards at hguards
  split at hguards
  · exact absurd hguards (by simp)
  · split at hguards
    · exact absurd hguards (by simp)
    · rename_i htrav habs
      obtain rfl : r = posixNormalize s := by simpa using hguards.symm
      push_neg at htrav
      obtain ⟨h1, h2, h3, h4⟩ := htrav
      refine ⟨rfl, ?_, ?_, ?_, h4, ?_⟩
      · simpa using h1
      · simpa using h2
      · simpa using h3
      · simpa using habs

/-- Witness for C10 at the concrete input `"a/b/../c"`. -/
theorem sanitizePath_traversal_safe_witness :
    sanitizePath "a/b/../c" = Except.ok "a/c" ∧
    jsStartsWith "a/c" "../" = false ∧
    "a/c" ≠ ".." ∧
    jsStartsWith "a/c" "/" = false := by
  have hok : sanitizePath "a/b/../c" = Except.ok "a/c" := by rfl
  have h := sanitizePath_traversal_safe "a/b/../c" "a/c" hok
  exact ⟨hok, h.2.1, h.2.2.2.2.1, h.2.2.2.2.2⟩

/-! ## Helper lemmas shared by the claims -/

/-- A cache state holding exactly the hash of `fonts` reports no
configuration change. -/
theorem hasFontConfigChanged_of_hash (fonts : List FontObj) (st : CacheState)
    (h : st.configHash = some (generateFontConfigHash fonts)) :
    hasFontConfigChanged fonts st = false := by
  unfold hasFontConfigChanged
  rw [h]
  simp

/-- When the hash matches, the cached list is nonempty and all recorded
files exist, the run is the cache-hit branch. -/
theorem run_eq_cacheHit (fonts : List FontObj) (stateFile : Option (Option CacheState))
    (fileExists : String → Bool) (dl : String → Option Nat) (now : String)
    (h1 : hasFontConfigChanged fonts (loadFontCacheState stateFile) = false)
    (h2 : 0 < (loadFontCacheState stateFile).fonts.length)
    (h3 : allCachedFilesExist fileExists (loadFontCacheState stateFile).fonts = true) :
    downloadFontsWithCache fonts stateFile fileExists dl now =
      cacheHitResult (loadFontCacheState stateFile) := by
  simp only [downloadFontsWithCache]
  rw [if_pos ⟨h1, h2⟩, if_pos h3]

/-- When the hash differs or the cached list is empty, the run is the
download path. -/
theorem run_eq_downloadPath (fonts : List FontObj) (stateFile : Option (Option CacheState))
    (fileExists : String → Bool) (dl : String → Option Nat) (now : String)
    (h : ¬(hasFontConfigChanged fonts (loadFontCacheState stateFile) = false ∧
          0 < (loadFontCacheState stateFile).fonts.length)) :
    downloadFontsWithCache fonts stateFile fileExists dl now =
      downloadPathResult fonts dl now := by
  simp only [downloadFontsWithCache]
  rw [if_neg h]

/-- The loop attempts exactly the configured URLs, in order. -/
theorem downloadLoop_fst (dl : String → Option Nat) (fonts : List FontObj) :
    (downloadLoop dl fonts).1 = allFontUrls fonts := by
  induction fonts with
  | nil => rfl
  | cons f rest ih => simp [downloadLoop, allFontUrls, ih]

/-- The loop collects exactly one entry per font with a successful
download, in order. -/
theorem downloadLoop_snd (dl : String → Option Nat) (fonts : List FontObj) :
    (downloadLoop dl fonts).2 =
      (fonts.filter (fun f => fontSucceeded dl f)).map (mkCachedFontEntry dl) := by
  induction fonts with
  | nil => rfl
  | cons f rest ih =>
    simp only [downloadLoop, fontEntry, List.filter_cons]
    by_cases h : fontSucceeded dl f <;> simp [h, ih]

/-- The download-path result, with the loop output spelled out. -/
theorem downloadPathResult_eq (fonts : List FontObj) (dl : String → Option Nat) (now : String) :
    downloadPathResult fonts dl now =
      { downloads := allFontUrls fonts
        fontsJson := some ((fonts.filter (fun f => fontSucceeded dl f)).map (mkCachedFontEntry dl))
        savedState := some
          { lastSync := some now
            configHash := some (generateFontConfigHash fonts)
            fonts := (fonts.filter (fun f => fontSucceeded dl f)).map (mkCachedFontEntry dl)
            version := "1.0.0" }
        returned := (fonts.filter (fun f => fontSucceeded dl f)).map (mkCachedFontEntry dl)
        cleanedOldFonts := true } := by
  simp only [downloadPathResult, downloadLoop_fst, downloadLoop_snd]

/-- Behaviour of the retry loop when the first `k` attempts fail and
attempt `k` succeeds within budget, at an arbitrary loop offset. -/
theorem retryGo_ok (fn : Nat → Except String Nat) (base v : Nat) :
    ∀ (k attempt remaining : Nat), k ≤ remaining →
      (∀ i, i < k → ∃ e, fn (attempt + i) = Except.error e) →
      fn (attempt + k) = Except.ok v →
      retryGo fn base attempt remaining =
        (Except.ok v, attempt + k + 1,
          (List.range k).map (fun i => base * 2 ^ (attempt + i))) := by
  intro k
  induction k with
  | zero =>
    intro attempt remaining _ _ hsucc
    rw [Nat.add_zero] at hsucc
    cases remaining <;> simp [retryGo, hsucc]
  | succ k ih =>
    intro attempt remaining hle hfail hsucc
    obtain ⟨e0, he0⟩ := hfail 0 (Nat.succ_pos k)
    rw [Nat.add_zero] at he0
    cases remaining with
    | zero => omega
    | succ r =>
      have hle' : k ≤ r := Nat.succ_le_succ_iff.mp hle
      have hfail' : ∀ i, i < k → ∃ e, fn (attempt + 1 + i) = Except.error e := by
        intro i hi
        have h := hfail (i + 1) (Nat.succ_lt_succ hi)
        have harith : attempt + (i + 1) = attempt + 1 + i := by omega
        rwa [harith] at h
      have hsucc' : fn (attempt + 1 + k) = Except.ok v := by
        have harith : attempt + 1 + k = attempt + (k + 1) := by omega
        rw [harith]; exact hsucc
      have hmap : (List.range (k + 1)).map (fun i => base * 2 ^ (attempt + i)) =
          base * 2 ^ attempt :: (List.range k).map (fun i => base * 2 ^ (attempt + 1 + i)) := by
        rw [List.range_succ_eq_map, List.map_cons, List.map_map]
        refine congrArg₂ _ (by rw [Nat.add_zero]) (List.map_congr_left ?_)
        intro i _
        have harith : attempt + (i + 1) = attempt + 1 + i := by omega
        simp [Function.comp, harith]
      simp only [retryGo, he0]
      rw [ih (attempt + 1) r hle' hfail' hsucc', hmap]
      dsimp only
      refine congrArg₂ _ rfl (congrArg₂ _ (by omega) rfl)

/-- Attempt count of the retry loop when every attempt fails. -/
theorem retryGo_allFail (fn : Nat → Except String Nat) (base : Nat)
    (hfail : ∀ i, ∃ e, fn i = Except.error e) :
    ∀ remaining attempt, (retryGo fn base attempt remaining).2.1 = attempt + remaining + 1 := by
  intro remaining
  induction remaining with
  | zero =>
    intro attempt
    obtain ⟨e, he⟩ := hfail attempt
    simp [retryGo, he]
  | succ r ih =>
    intro attempt
    obtain ⟨e, he⟩ := hfail attempt
    simp only [retryGo, he]
    rw [ih (attempt + 1)]
    omega

/-! ## The claims -/

/-- C2: Retry with exponential backoff: an operation whose first `k`
invocations fail and whose invocation `k` succeeds, with
`k ≤ maxRetries`, is attempted exactly `k + 1` times, and the delay
slept before the `n`-th retry (0-indexed `i`) is
`baseRetryDelayMs * 2 ^ i`; in particular (see the witness) an
operation failing twice with `maxRetries = 3`, `baseDelay = 100` is
attempted exactly 3 times with inter-attempt delays 100ms then
200ms. -/
theorem retryWithBackoff_backoff (fn : Nat → Except String Nat)
    (maxRetries baseDelay k v : Nat)
    (hk : k ≤ maxRetries)
    (hfail : ∀ i, i < k → ∃ e, fn i = Except.error e)
    (hsucc : fn k = Except.ok v) :
    retryWithBackoff fn maxRetries baseDelay =
      (Except.ok v, k + 1, (List.range k).map (fun i => baseDelay * 2 ^ i)) := by
  have h := retryGo_ok fn baseDelay v k 0 maxRetries hk
    (by simpa using hfail) (by simpa using hsucc)
  simpa [retryWithBackoff] using h

/-- Witness for C2: two transient failures then success, with
`maxRetries = 3` and `baseDelay = 100`: exactly 3 attempts, delays
100ms then 200ms. -/
theorem retryWithBackoff_backoff_witness :
    retryWithBackoff (fun i => if i < 2 then Except.error "ETIMEDOUT" else Except.ok 1024) 3 100 =
      (Except.ok 1024, 3, [100, 200]) := by
  have h := retryWithBackoff_backoff
    (fun i => if i < 2 then Except.error "ETIMEDOUT" else Except.ok 1024) 3 100 2 1024
    (by omega)
    (fun i hi => ⟨"ETIMEDOUT", by interval_cases i <;> rfl⟩)
    (by rfl)
  exact h.trans (by rfl)

/-- C3 counterexample: a client `404 Not Found` response on every
attempt leads to `maxRetries + 1 = 4` attempts with the default budget
of 3 retries — not exactly 1 attempt as the claim states. -/
theorem downloadFont_404_is_retried :
    (downloadFont (fun _ => FetchOutcome.response false 404 "Not Found" 0) 3 1000).2.1 = 4 ∧
    (downloadFont (fun _ => FetchOutcome.response false 404 "Not Found" 0) 3 1000).2.1 ≠ 1 :=
  ⟨rfl, by decide⟩

/-- C3 (amended): `downloadFont` does not distinguish retriable from
non-retriable failures: every failing attempt — timeout, connection
reset, rate-limit, server error, or any client error such as 404 — is
retried, and when every attempt fails the fetch is attempted exactly
`maxRetries + 1` times. -/
theorem downloadFont_retries_every_failure (net : Nat → FetchOutcome)
    (maxRetries retryDelay : Nat)
    (hfail : ∀ i, ∃ e, fetchAttempt (net i) = Except.error e) :
    (downloadFont net maxRetries retryDelay).2.1 = maxRetries + 1 := by
  have h := retryGo_allFail (fun i => fetchAttempt (net i)) retryDelay hfail maxRetries 0
  simpa [downloadFont, retryWithBackoff] using h

/-- Witness for the amended C3: all attempts respond 404 with a budget
of 2 retries: exactly 3 attempts. -/
theorem downloadFont_retries_every_failure_witness :
    (downloadFont (fun _ => FetchOutcome.response false 404 "Not Found" 0) 2 50).2.1 = 3 :=
  downloadFont_retries_every_failure
    (fun _ => FetchOutcome.response false 404 "Not Found" 0) 2 50
    (fun _ => ⟨"HTTP 404: Not Found", rfl⟩)

/-- C4: Fingerprint determinism under canonicalization:
`generateFontConfigHash` is a pure function (a Lean `def`), and two
font lists agreeing pairwise on the logical fields `name`, `url1`,
`url2` — whatever the field order inside each object and whatever
extra fields are present — hash identically. -/
theorem generateFontConfigHash_canonical (fs1 fs2 : List FontObj)
    (h : List.Forall₂ (fun f g =>
      lookupField f "name" = lookupField g "name" ∧
      lookupField f "url1" = lookupField g "url1" ∧
      lookupField f "url2" = lookupField g "url2") fs1 fs2) :
    generateFontConfigHash fs1 = generateFontConfigHash fs2 := by
  unfold generateFontConfigHash fontConfigString
  suffices hmap : fs1.map fontTripleJson = fs2.map fontTripleJson by rw [hmap]
  induction h with
  | nil => rfl
  | cons hpair _ ih =>
    simp only [List.map_cons, ih]
    congr 1
    unfold fontTripleJson
    rw [hpair.1, hpair.2.1, hpair.2.2]

/-- Witness for C4: same logical fields, different field order, one
extra field. -/
theorem generateFontConfigHash_canonical_witness :
    generateFontConfigHash
      [[("name", "A"), ("url1", "https://cms/a.woff"),
        ("url2", "https://cms/a.woff2"), ("weight", "700")]] =
    generateFontConfigHash
      [[("url2", "https://cms/a.woff2"), ("name", "A"), ("url1", "https://cms/a.woff")]] :=
  generateFontConfigHash_canonical _ _
    (List.Forall₂.cons ⟨rfl, rfl, rfl⟩ List.Forall₂.nil)

/-- C5: Cache State Store totality: `loadFontCacheState` never raises —
a missing (`none`) or unparseable (`some none`) state file yields the
fresh empty manifest tagged `1.0.0` with null `lastSync`/`configHash`
and empty fonts — and `saveFontCacheState` is best-effort: a write
failure is caught and logged (it is a total function), leaving the
previously persisted file untouched. -/
theorem cacheStateStore_total :
    loadFontCacheState none = freshFontCacheState ∧
    loadFontCacheState (some none) = freshFontCacheState ∧
    freshFontCacheState =
      { lastSync := none, configHash := none, fonts := [], version := "1.0.0" } ∧
    (∀ writeOk prior st, (saveFontCacheState writeOk prior st).errorLogged = !writeOk) ∧
    (∀ prior st, (saveFontCacheState false prior st).fileAfter = prior) :=
  ⟨rfl, rfl, rfl, fun writeOk _ _ => by cases writeOk <;> rfl, fun _ _ => rfl⟩

/-- C6 counterexample: a state file that parses, carries the old
version `0.0.1` and holds a font entry is returned as-is by
`loadFontCacheState` — its entries are kept, not treated as an empty
fresh manifest as the claim states. -/
theorem loadFontCacheState_oldVersion_kept :
    loadFontCacheState (some (some
      { lastSync := some "2024-01-01T00:00:00Z", configHash := some "0123abcd",
        fonts := [{ name := some "Old", woff := some "/fonts/old.woff", woff2 := none }],
        version := "0.0.1" })) =
      { lastSync := some "2024-01-01T00:00:00Z", configHash := some "0123abcd",
        fonts := [{ name := some "Old", woff := some "/fonts/old.woff", woff2 := none }],
        version := "0.0.1" } ∧
    ({ lastSync := some "2024-01-01T00:00:00Z", configHash := some "0123abcd",
       fonts := [{ name := some "Old", woff := some "/fonts/old.woff", woff2 := none }],
       version := "0.0.1" } : CacheState).fonts ≠ [] :=
  ⟨rfl, by decide⟩

/-- C6 (amended): the manifest schema carries a `version` field and
fresh manifests are tagged `1.0.0`, but `loadFontCacheState` performs
no version gating: every state file that parses is returned exactly
as-is, whatever its version. -/
theorem loadFontCacheState_noVersionGate :
    (∀ st, loadFontCacheState (some (some st)) = st) ∧
    freshFontCacheState.version = "1.0.0" :=
  ⟨fun _ => rfl, rfl⟩

/-- C1 counterexample: a run whose configuration hash matches the
cached `configHash`, with a nonempty cached list and all files
present, performs no download and returns the cached list — but saves
nothing: `savedState = none`, so the persisted `lastSync`
(`checkedAt`) metadata of 2025-01-01 is NOT refreshed to the current
run time, contradicting the claim that the `checkedAt`/`lastCheckedAt`
metadata is refreshed on a cache hit. -/
theorem downloadFontsWithCache_cacheHit_noRefresh :
    (downloadFontsWithCache
      [[("name", "Regular"), ("url1", "https://cms/regular.woff")]]
      (some (some
        { lastSync := some "2025-01-01T00:00:00Z"
          configHash := some (generateFontConfigHash
            [[("name", "Regular"), ("url1", "https://cms/regular.woff")]])
          fonts := [{ name := some "Regular", woff := some "/fonts/regular.woff", woff2 := none }]
          version := "1.0.0" }))
      (fun _ => true) (fun _ => none) "2025-02-02T00:00:00Z").savedState = none ∧
    (downloadFontsWithCache
      [[("name", "Regular"), ("url1", "https://cms/regular.woff")]]
      (some (some
        { lastSync := some "2025-01-01T00:00:00Z"
          configHash := some (generateFontConfigHash
            [[("name", "Regular"), ("url1", "https://cms/regular.woff")]])
          fonts := [{ name := some "Regular", woff := some "/fonts/regular.woff", woff2 := none }]
          version := "1.0.0" }))
      (fun _ => true) (fun _ => none) "2025-02-02T00:00:00Z").downloads = [] := by
  have h := run_eq_cacheHit
    [[("name", "Regular"), ("url1", "https://cms/regular.woff")]]
    (some (some
      { lastSync := some "2025-01-01T00:00:00Z"
        configHash := some (generateFontConfigHash
          [[("name", "Regular"), ("url1", "https://cms/regular.woff")]])
        fonts := [{ name := some "Regular", woff := some "/fonts/regular.woff", woff2 := none }]
        version := "1.0.0" }))
    (fun _ => true) (fun _ => none) "2025-02-02T00:00:00Z"
    (hasFontConfigChanged_of_hash _ _ rfl) (by decide) (by rfl)
  rw [h]
  exact ⟨rfl, rfl⟩

/-- C1 (amended): Cache-hit correctness: when the configuration hash
matches the cached `configHash`, the cached fonts list is nonempty and
every recorded font file is present on disk, `downloadFontsWithCache`
performs no download for any font and returns the cached fonts list
unchanged (also rewriting `fonts.json` from it) — and it refreshes no
metadata at all: the cache state file is left untouched
(`savedState = none`), old font files are not cleaned. -/
theorem downloadFontsWithCache_cacheHit (fonts : List FontObj)
    (stateFile : Option (Option CacheState)) (fileExists : String → Bool)
    (dl : String → Option Nat) (now : String)
    (hnochange : hasFontConfigChanged fonts (loadFontCacheState stateFile) = false)
    (hnonempty : 0 < (loadFontCacheState stateFile).fonts.length)
    (hfiles : allCachedFilesExist fileExists (loadFontCacheState stateFile).fonts = true) :
    downloadFontsWithCache fonts stateFile fileExists dl now =
      { downloads := []
        fontsJson := some (loadFontCacheState stateFile).fonts
        savedState := none
        returned := (loadFontCacheState stateFile).fonts
        cleanedOldFonts := false } := by
  rw [run_eq_cacheHit fonts stateFile fileExists dl now hnochange hnonempty hfiles]
  rfl

/-- Witness for the amended C1 at a concrete one-font cache hit. -/
theorem downloadFontsWithCache_cacheHit_witness :
    downloadFontsWithCache
      [[("name", "Black"), ("url2", "https://cms/black.woff2")]]
      (some (some
        { lastSync := some "2025-10-20T13:14:59.000Z"
          configHash := some (generateFontConfigHash
            [[("name", "Black"), ("url2", "https://cms/black.woff2")]])
          fonts := [{ name := some "Black", woff := none, woff2 := some "/fonts/black.woff2" }]
          version := "1.0.0" }))
      (fun _ => true) (fun _ => some 1000) "2025-10-21T00:00:00.000Z" =
      { downloads := []
        fontsJson := some [{ name := some "Black", woff := none, woff2 := some "/fonts/black.woff2" }]
        savedState := none
        returned := [{ name := some "Black", woff := none, woff2 := some "/fonts/black.woff2" }]
        cleanedOldFonts := false } := by
  have h := downloadFontsWithCache_cacheHit
    [[("name", "Black"), ("url2", "https://cms/black.woff2")]]
    (some (some
      { lastSync := some "2025-10-20T13:14:59.000Z"
        configHash := some (generateFontConfigHash
          [[("name", "Black"), ("url2", "https://cms/black.woff2")]])
        fonts := [{ name := some "Black", woff := none, woff2 := some "/fonts/black.woff2" }]
        version := "1.0.0" }))
    (fun _ => true) (fun _ => some 1000) "2025-10-21T00:00:00.000Z"
    (hasFontConfigChanged_of_hash _ _ rfl) (by decide) (by rfl)
  exact h.trans (by rfl)

/-- C7: Partial-failure isolation: in a run that takes the download
path, with a font `X` in the list for which every format download
failed (retries exhausted), the run still completes with a full
result: every configured URL of every font is attempted, and
`fonts.json`, the saved cache state and the returned list hold exactly
one entry per font that had at least one successful download — hence
no entry for `X` — with the saved `configHash` covering the entire
requested configuration. -/
theorem downloadFontsWithCache_partialFailure (fonts : List FontObj)
    (stateFile : Option (Option CacheState)) (fileExists : String → Bool)
    (dl : String → Option Nat) (now : String) (X : FontObj)
    (hX : X ∈ fonts) (hXfail : fontSucceeded dl X = false)
    (hchanged : hasFontConfigChanged fonts (loadFontCacheState stateFile) = true) :
    downloadFontsWithCache fonts stateFile fileExists dl now =
      { downloads := allFontUrls fonts
        fontsJson := some ((fonts.filter (fun f => fontSucceeded dl f)).map (mkCachedFontEntry dl))
        savedState := some
          { lastSync := some now
            configHash := some (generateFontConfigHash fonts)
            fonts := (fonts.filter (fun f => fontSucceeded dl f)).map (mkCachedFontEntry dl)
            version := "1.0.0" }
        returned := (fonts.filter (fun f => fontSucceeded dl f)).map (mkCachedFontEntry dl)
        cleanedOldFonts := true } := by
  rw [run_eq_downloadPath fonts stateFile fileExists dl now (by simp [hchanged]),
    downloadPathResult_eq]

/-- Witness for C7: three fonts, the middle one failing both formats;
the other two are still processed and are the only entries. -/
theorem downloadFontsWithCache_partialFailure_witness :
    downloadFontsWithCache
      [[("name", "A"), ("url1", "https://cms/a.woff")],
       [("name", "X"), ("url1", "https://cms/x.woff")],
       [("name", "B"), ("url2", "https://cms/b.woff2")]]
      none (fun _ => true)
      (fun u => if u = "https://cms/x.woff" then none else some 1000)
      "2025-01-01T00:00:00Z" =
      { downloads := ["https://cms/a.woff", "https://cms/x.woff", "https://cms/b.woff2"]
        fontsJson := some
          [{ name := some "A", woff := some "/fonts/a.woff", woff2 := none },
           { name := some "B", woff := none, woff2 := some "/fonts/b.woff2" }]
        savedState := some
          { lastSync := some "2025-01-01T00:00:00Z"
            configHash := some (generateFontConfigHash
              [[("name", "A"), ("url1", "https://cms/a.woff")],
               [("name", "X"), ("url1", "https://cms/x.woff")],
               [("name", "B"), ("url2", "https://cms/b.woff2")]])
            fonts := [{ name := some "A", woff := some "/fonts/a.woff", woff2 := none },
                      { name := some "B", woff := none, woff2 := some "/fonts/b.woff2" }]
            version := "1.0.0" }
        returned := [{ name := some "A", woff := some "/fonts/a.woff", woff2 := none },
                     { name := some "B", woff := none, woff2 := some "/fonts/b.woff2" }]
        cleanedOldFonts := true } := by
  have h := downloadFontsWithCache_partialFailure
    [[("name", "A"), ("url1", "https://cms/a.woff")],
     [("name", "X"), ("url1", "https://cms/x.woff")],
     [("name", "B"), ("url2", "https://cms/b.woff2")]]
    none (fun _ => true)
    (fun u => if u = "https://cms/x.woff" then none else some 1000)
    "2025-01-01T00:00:00Z"
    [("name", "X"), ("url1", "https://cms/x.woff")]
    (by decide) (by rfl) (by rfl)
  exact h.trans (by rfl)

/-- C8: Missing origin configuration: when `KIRBY_URL` is absent, both
the Netlify `onPreBuild` hook and the Astro integration hook skip the
font domain and return with no network request made (and no crash: the
embedding is a total function). -/
theorem missingKirbyUrl_skips (kirbyUrl : Option String) (nodeEnv : Option String)
    (netlify : Bool) (globalFonts : Option (List FontObj))
    (stateFile : Option (Option CacheState)) (fileExists : String → Bool)
    (dl : String → Option Nat) (now : String)
    (h : kirbyUrl = none) :
    onPreBuildHook kirbyUrl globalFonts stateFile fileExists dl now =
      { requests := [], skippedFontDomain := true, run := none } ∧
    fontDownloaderHook nodeEnv netlify kirbyUrl globalFonts stateFile fileExists dl now =
      { requests := [], skippedFontDomain := true, run := none } := by
  subst h
  refine ⟨rfl, ?_⟩
  unfold fontDownloaderHook
  split
  · rfl
  · split
    · rfl
    · rfl

/-- Witness for C8 in a local production environment with fonts
configured but no `KIRBY_URL`. -/
theorem missingKirbyUrl_skips_witness :
    onPreBuildHook none (some [[("name", "A"), ("url1", "https://cms/a.woff")]])
      none (fun _ => true) (fun _ => some 1000) "2025-01-01T00:00:00Z" =
      { requests := [], skippedFontDomain := true, run := none } ∧
    fontDownloaderHook (some "production") false none
      (some [[("name", "A"), ("url1", "https://cms/a.woff")]])
      none (fun _ => true) (fun _ => some 1000) "2025-01-01T00:00:00Z" =
      { requests := [], skippedFontDomain := true, run := none } :=
  missingKirbyUrl_skips none (some "production") false
    (some [[("name", "A"), ("url1", "https://cms/a.woff")]])
    none (fun _ => true) (fun _ => some 1000) "2025-01-01T00:00:00Z" rfl

/-- C9 counterexample: configuration with one font `X` whose downloads
all fail on the first run.  The persisted state hashes the entire
configuration but records no fonts, so the next run with the same
configuration does NOT take the cache-hit branch: it attempts `X`'s
URL again — the previously failed font is retried even though the
configuration is unchanged. -/
theorem failedFonts_retried_when_none_succeeded :
    (downloadFontsWithCache [[("name", "X"), ("url1", "https://cms/x.woff")]]
      none (fun _ => true) (fun _ => none) "2025-01-01T00:00:00Z").savedState = some
      { lastSync := some "2025-01-01T00:00:00Z"
        configHash := some (generateFontConfigHash [[("name", "X"), ("url1", "https://cms/x.woff")]])
        fonts := []
        version := "1.0.0" } ∧
    (downloadFontsWithCache [[("name", "X"), ("url1", "https://cms/x.woff")]]
      (some (some
        { lastSync := some "2025-01-01T00:00:00Z"
          configHash := some (generateFontConfigHash [[("name", "X"), ("url1", "https://cms/x.woff")]])
          fonts := []
          version := "1.0.0" }))
      (fun _ => true) (fun _ => none) "2025-01-02T00:00:00Z").downloads =
      ["https://cms/x.woff"] ∧
    (["https://cms/x.woff"] : List String) ≠ [] := by
  refine ⟨rfl, ?_, by decide⟩
  rw [run_eq_downloadPath _ _ _ _ _ (by rintro ⟨-, hlen⟩; exact absurd hlen (by decide))]
  rfl

/-- C9 (amended): after a download-path run in which some fonts failed
but at least one font succeeded, the persisted state's `configHash` is
the hash of the entire requested configuration while its fonts list is
exactly the successful entries (omitting every failed font); a
subsequent call with the same fonts list, all recorded files still
present, performs no download attempt at all — in particular none for
the previously failed fonts. -/
theorem failedFonts_notRetried_while_config_unchanged (fonts : List FontObj)
    (sf1 : Option (Option CacheState)) (fe1 fe2 : String → Bool)
    (dl1 dl2 : String → Option Nat) (now1 now2 : String)
    (hchanged : hasFontConfigChanged fonts (loadFontCacheState sf1) = true)
    (hsomefail : ∃ f ∈ fonts, fontSucceeded dl1 f = false)
    (hsucc : fontDataOf dl1 fonts ≠ [])
    (hfiles : allCachedFilesExist fe2 (fontDataOf dl1 fonts) = true) :
    ∀ S, (downloadFontsWithCache fonts sf1 fe1 dl1 now1).savedState = some S →
      S.configHash = some (generateFontConfigHash fonts) ∧
      S.fonts = fontDataOf dl1 fonts ∧
      (downloadFontsWithCache fonts (some (some S)) fe2 dl2 now2).downloads = [] := by
  intro S hS
  rw [run_eq_downloadPath fonts sf1 fe1 dl1 now1 (by simp [hchanged])] at hS
  simp only [downloadPathResult] at hS
  have hSeq : S =
      { lastSync := some now1
        configHash := some (generateFontConfigHash fonts)
        fonts := fontDataOf dl1 fonts
        version := "1.0.0" } := (Option.some.inj hS).symm
  subst hSeq
  refine ⟨rfl, rfl, ?_⟩
  rw [run_eq_cacheHit fonts (some (some
      { lastSync := some now1
        configHash := some (generateFontConfigHash fonts)
        fonts := fontDataOf dl1 fonts
        version := "1.0.0" })) fe2 dl2 now2
    (hasFontConfigChanged_of_hash _ _ rfl)
    (by simpa [loadFontCacheState] using List.length_pos.mpr hsucc)
    (by simpa [loadFontCacheState] using hfiles)]
  rfl

/-- Witness for the amended C9: font `A` succeeds, font `X` fails; the
second run with the saved state performs zero download attempts. -/
theorem failedFonts_notRetried_witness :
    (downloadFontsWithCache
      [[("name", "A"), ("url1", "https://cms/a.woff")],
       [("name", "X"), ("url1", "https://cms/x.woff")]]
      none (fun _ => true)
      (fun u => if u = "https://cms/x.woff" then none else some 1000)
      "2025-01-01T00:00:00Z").savedState = some
      { lastSync := some "2025-01-01T00:00:00Z"
        configHash := some (generateFontConfigHash
          [[("name", "A"), ("url1", "https://cms/a.woff")],
           [("name", "X"), ("url1", "https://cms/x.woff")]])
        fonts := [{ name := some "A", woff := some "/fonts/a.woff", woff2 := none }]
        version := "1.0.0" } ∧
    (downloadFontsWithCache
      [[("name", "A"), ("url1", "https://cms/a.woff")],
       [("name", "X"), ("url1", "https://cms/x.woff")]]
      (some (some
        { lastSync := some "2025-01-01T00:00:00Z"
          configHash := some (generateFontConfigHash
            [[("name", "A"), ("url1", "https://cms/a.woff")],
             [("name", "X"), ("url1", "https://cms/x.woff")]])
          fonts := [{ name := some "A", woff := some "/fonts/a.woff", woff2 := none }]
          version := "1.0.0" }))
      (fun _ => true) (fun _ => none) "2025-01-02T00:00:00Z").downloads = [] := by
  have hsaved : (downloadFontsWithCache
      [[("name", "A"), ("url1", "https://cms/a.woff")],
       [("name", "X"), ("url1", "https://cms/x.woff")]]
      none (fun _ => true)
      (fun u => if u = "https://cms/x.woff" then none else some 1000)
      "2025-01-01T00:00:00Z").savedState = some
      { lastSync := some "2025-01-01T00:00:00Z"
        configHash := some (generateFontConfigHash
          [[("name", "A"), ("url1", "https://cms/a.woff")],
           [("name", "X"), ("url1", "https://cms/x.woff")]])
        fonts := [{ name := some "A", woff := some "/fonts/a.woff", woff2 := none }]
        version := "1.0.0" } := by rfl
  have h := failedFonts_notRetried_while_config_unchanged
    [[("name", "A"), ("url1", "https://cms/a.woff")],
     [("name", "X"), ("url1", "https://cms/x.woff")]]
    none (fun _ => true) (fun _ => true)
    (fun u => if u = "https://cms/x.woff" then none else some 1000) (fun _ => none)
    "2025-01-01T00:00:00Z" "2025-01-02T00:00:00Z"
    (by rfl)
    ⟨[("name", "X"), ("url1", "https://cms/x.woff")], by decide, by rfl⟩
    (by decide) (by rfl)
    { lastSync := some "2025-01-01T00:00:00Z"
      configHash := some (generateFontConfigHash
        [[("name", "A"), ("url1", "https://cms/a.woff")],
         [("name", "X"), ("url1", "https://cms/x.woff")]])
      fonts := [{ name := some "A", woff := some "/fonts/a.woff", woff2 := none }]
      version := "1.0.0" }
    hsaved
  exact ⟨hsaved, h.2.2⟩

end Baukasten
